import Mathlib

/-!
Shallow embedding of the ParkiLite parking backend (`models.py`, `database.py`,
`main.py`): users register vehicles, start and stop metered parking sessions in
billing zones, and keep a prepaid balance.

Modelling decisions:
* Python floats (balances, rates, costs) are modelled as `ℚ`; Python ints as
  `Nat`/`ℤ`; timestamps (`datetime`) as `ℚ` seconds since an epoch, so that
  `total_seconds()` of a difference is plain subtraction.
* The SQL store is a record of four lists.  `select(...).where(...).first()`
  and `session.get(Model, pk)` become `List.find?`; `session.add` of a fetched
  row followed by `commit` becomes a map that replaces the row with the
  matching primary key; `session.add` of a fresh row appends it with a fresh
  autoincrement id.
* Each endpoint body becomes a function `Store → ... → Except ApiError (α × Store)`.
  `raise HTTPException` before any commit returns `.error e` and, by
  construction, leaves the store untouched.
* In `stop_session` the code fetches the zone without a presence check and
  dereferences `zone.rate_per_min` only in the `minutes > 3` branch; a missing
  zone there would raise an uncaught `AttributeError`, modelled as
  `ApiError.internalError`.
-/

set_option maxHeartbeats 1000000

/-- A user row (`models.py`, class `User`). -/
structure User where
  id : Nat
  email : String
  api_key : String
  balance : ℚ
deriving DecidableEq

/-- A zone row (`models.py`, class `Zone`). -/
structure Zone where
  id : Nat
  name : String
  rate_per_min : ℚ
  max_minutes : ℤ
deriving DecidableEq

/-- A vehicle row (`models.py`, class `Vehicle`). -/
structure Vehicle where
  id : Nat
  user_id : Nat
  plate : String
deriving DecidableEq

/-- A parking-session row (`models.py`, class `ParkingSession`). -/
structure ParkingSession where
  id : Nat
  user_id : Nat
  vehicle_id : Nat
  zone_id : Nat
  started_at : ℚ
  ended_at : Option ℚ
  minutes : Option ℤ
  cost : Option ℚ
  status : String
deriving DecidableEq

/-- The relational store: the four tables created by `create_db_and_tables`. -/
structure Store where
  users : List User
  zones : List Zone
  vehicles : List Vehicle
  sessions : List ParkingSession
deriving DecidableEq

/-- The error taxonomy of the `HTTPException`s raised in `main.py`, plus
`internalError` for the uncaught `AttributeError` that `stop_session` would
raise on a missing zone (see `billing`). -/
inductive ApiError where
  | notFound
  | conflict
  | permissionDenied
  | invalidState
  | invalidArgument
  | internalError
deriving DecidableEq

/-- The HTTP status code each `HTTPException` in `main.py` carries. -/
def statusCode : ApiError → Nat
  | .notFound => 404
  | .conflict => 409
  | .permissionDenied => 403
  | .invalidState => 422
  | .invalidArgument => 422
  | .internalError => 500

/-- The API response schema `SessionResponse` (`models.py`). -/
structure SessionResponse where
  id : Nat
  user_id : Nat
  vehicle_id : Nat
  zone_id : Nat
  started_at : ℚ
  ended_at : Option ℚ
  minutes : Option ℤ
  cost : Option ℚ
  status : String
  cost_total : Option ℚ
deriving DecidableEq

/-- Builds a `SessionResponse` from a session row, as the endpoint bodies do. -/
def sessionResponseOf (ps : ParkingSession) (ct : Option ℚ) : SessionResponse :=
  ⟨ps.id, ps.user_id, ps.vehicle_id, ps.zone_id, ps.started_at, ps.ended_at,
   ps.minutes, ps.cost, ps.status, ct⟩

/-- The vehicle query of `create_vehicle` / `start_session`:
`select(Vehicle).where(Vehicle.user_id == user.id, Vehicle.plate == plate).first()`. -/
def findVehicle (s : Store) (uid : Nat) (plate : String) : Option Vehicle :=
  s.vehicles.find? (fun v => v.user_id == uid && v.plate == plate)

/-- The active-session query of `start_session`:
`select(ParkingSession).where(vehicle_id == vid, status == "active").first()`. -/
def findActiveSession (s : Store) (vid : Nat) : Option ParkingSession :=
  s.sessions.find? (fun ps => ps.vehicle_id == vid && ps.status == "active")

/-- `session.get(Zone, zone_id)`. -/
def findZone (s : Store) (zid : Nat) : Option Zone :=
  s.zones.find? (fun z => z.id == zid)

/-- `session.get(ParkingSession, session_id)`. -/
def findSession (s : Store) (sid : Nat) : Option ParkingSession :=
  s.sessions.find? (fun ps => ps.id == sid)

/-- Looks a user row up by primary key. -/
def findUser (s : Store) (uid : Nat) : Option User :=
  s.users.find? (fun x => x.id == uid)

/-- Whether some active session exists for the vehicle (`if active_session:`). -/
def hasActive (s : Store) (vid : Nat) : Bool :=
  (findActiveSession s vid).isSome

/-- Number of sessions of the vehicle with `status = "active"`. -/
def countActive (s : Store) (vid : Nat) : Nat :=
  (s.sessions.filter (fun ps => ps.vehicle_id == vid && ps.status == "active")).length

/-- SQLite autoincrement primary key for a fresh vehicle row. -/
def nextVehicleId (s : Store) : Nat :=
  (s.vehicles.map Vehicle.id).foldr max 0 + 1

/-- SQLite autoincrement primary key for a fresh session row. -/
def nextSessionId (s : Store) : Nat :=
  (s.sessions.map ParkingSession.id).foldr max 0 + 1

/-- `create_vehicle` (`main.py` lines 70-97): 409 Conflict when the caller
already owns a vehicle with this exact plate string, otherwise persist and
return the new vehicle. -/
def create_vehicle (s : Store) (current_user : User) (plate : String) :
    Except ApiError (Vehicle × Store) :=
  match findVehicle s current_user.id plate with
  | some _ => .error .conflict
  | none =>
    let v : Vehicle := ⟨nextVehicleId s, current_user.id, plate⟩
    .ok (v, { s with vehicles := s.vehicles ++ [v] })

/-- The fresh session row persisted by `start_session`. -/
def newSession (s : Store) (uid vid zid : Nat) (now : ℚ) : ParkingSession :=
  ⟨nextSessionId s, uid, vid, zid, now, none, none, none, "active"⟩

/-- `start_session` (`main.py` lines 110-171): 404 when the caller has no
vehicle with this plate, 409 Conflict when that vehicle already has an active
session, 404 when the zone is absent; otherwise persist a fresh session with
`status = "active"` and unset `ended_at`/`minutes`/`cost`. -/
def start_session (s : Store) (current_user : User) (plate : String)
    (zone_id : Nat) (now : ℚ) : Except ApiError (SessionResponse × Store) :=
  match findVehicle s current_user.id plate with
  | none => .error .notFound
  | some vehicle =>
    if hasActive s vehicle.id then .error .conflict
    else
      match findZone s zone_id with
      | none => .error .notFound
      | some _ =>
        let ns := newSession s current_user.id vehicle.id zone_id now
        .ok (sessionResponseOf ns none, { s with sessions := s.sessions ++ [ns] })

/-- Outcome of the billing block of `stop_session` (`main.py` lines 206-223):
the locals `cost`, `cost_total`, `final_status`, and the caller's balance after
the block. -/
structure BillingResult where
  cost : ℚ
  cost_total : ℚ
  final_status : String
  new_balance : ℚ
deriving DecidableEq

/-- The billing block of `stop_session` (`main.py` lines 206-223), parametrised
by the (unchecked) zone lookup result.  When `minutes ≤ 3` the zone is never
dereferenced; otherwise `zone.rate_per_min` on a `None` zone would raise an
uncaught `AttributeError`, modelled by returning `none`. -/
def billing (minutes : ℤ) (zone : Option Zone) (balance : ℚ) :
    Option BillingResult :=
  if minutes ≤ 3 then
    some ⟨0, 0, "completed", balance⟩
  else
    match zone with
    | none => none
    | some z =>
      let cost : ℚ := minutes * z.rate_per_min
      if minutes > z.max_minutes then
        some ⟨cost, cost + 100, "fined", balance⟩
      else if balance < cost then
        some ⟨cost, cost, "pending_payment", balance⟩
      else
        some ⟨cost, cost, "completed", balance - cost⟩

/-- The finalized session row written by `stop_session`. -/
def stoppedSession (ps : ParkingSession) (now : ℚ) (m : ℤ) (b : BillingResult) :
    ParkingSession :=
  { ps with ended_at := some now, minutes := some m, cost := some b.cost,
            status := b.final_status }

/-- `stop_session` (`main.py` lines 173-247): 404 when the session is absent,
403 when not owned by the caller, 422 when not active; otherwise
`minutes = ceil((now - started_at) / 60)`, the billing block runs, the session
and the caller are persisted together, and the response carries `cost_total`
only when fined. -/
def stop_session (s : Store) (current_user : User) (session_id : Nat)
    (now : ℚ) : Except ApiError (SessionResponse × Store) :=
  match findSession s session_id with
  | none => .error .notFound
  | some ps =>
    if ps.user_id ≠ current_user.id then .error .permissionDenied
    else if ps.status ≠ "active" then .error .invalidState
    else
      let duration_seconds := now - ps.started_at
      let minutes : ℤ := ⌈duration_seconds / 60⌉
      match billing minutes (findZone s ps.zone_id) current_user.balance with
      | none => .error .internalError
      | some b =>
        let ps' := stoppedSession ps now minutes b
        let user' : User := { current_user with balance := b.new_balance }
        let s' : Store :=
          { s with
            sessions := s.sessions.map (fun q => if q.id == session_id then ps' else q),
            users := s.users.map (fun q => if q.id == current_user.id then user' else q) }
        .ok (sessionResponseOf ps'
              (if b.final_status == "fined" then some b.cost_total else none), s')

/-- `deposit_to_wallet` (`main.py` lines 287-308): 422 when `amount ≤ 0`,
otherwise `balance += amount`, persist, and return the new balance. -/
def deposit_to_wallet (s : Store) (current_user : User) (amount : ℚ) :
    Except ApiError (ℚ × Store) :=
  if amount ≤ 0 then .error .invalidArgument
  else
    let user' : User := { current_user with balance := current_user.balance + amount }
    .ok (user'.balance,
         { s with users := s.users.map (fun q => if q.id == current_user.id then user' else q) })

/-- The seed user of `seed_data` (`database.py`). -/
def demoUser : User := ⟨1, "demo@iberopuebla.mx", "testkey", 300⟩

/-- Seed zone A (`database.py`): rate 1.5 per minute, max 120 minutes. -/
def zoneA : Zone := ⟨1, "A", 3 / 2, 120⟩

/-- Seed zone B (`database.py`): rate 1.0 per minute, max 180 minutes. -/
def zoneB : Zone := ⟨2, "B", 1, 180⟩

/-- The store right after startup: seed user and zones, no vehicles, no
sessions. -/
def initStore : Store := ⟨[demoUser], [zoneA, zoneB], [], []⟩

/-- Store states reachable from startup by the mutating endpoints, each called
with an authenticated user, i.e. a user row of the store. -/
inductive Reachable : Store → Prop where
  | init : Reachable initStore
  | step_vehicle {s s' : Store} {u : User} {plate : String} {v : Vehicle} :
      Reachable s → u ∈ s.users →
      create_vehicle s u plate = .ok (v, s') → Reachable s'
  | step_start {s s' : Store} {u : User} {plate : String} {zid : Nat} {now : ℚ}
      {r : SessionResponse} :
      Reachable s → u ∈ s.users →
      start_session s u plate zid now = .ok (r, s') → Reachable s'
  | step_stop {s s' : Store} {u : User} {sid : Nat} {now : ℚ}
      {r : SessionResponse} :
      Reachable s → u ∈ s.users →
      stop_session s u sid now = .ok (r, s') → Reachable s'
  | step_deposit {s s' : Store} {u : User} {amount b : ℚ} :
      Reachable s → u ∈ s.users →
      deposit_to_wallet s u amount = .ok (b, s') → Reachable s'

/-- Example vehicle owned by the demo user, used in concrete witnesses. -/
def exVehicle : Vehicle := ⟨1, 1, "ABC-123"⟩

/-- Example active session on `exVehicle` in zone A, started at time 0. -/
def exSession : ParkingSession := ⟨1, 1, 1, 1, 0, none, none, none, "active"⟩

/-- Example store: the seed store plus `exVehicle` and the active `exSession`. -/
def exStore : Store := ⟨[demoUser], [zoneA, zoneB], [exVehicle], [exSession]⟩

/-- Example user sharing the demo identity but with a balance of only 5. -/
def poorUser : User := ⟨1, "demo@iberopuebla.mx", "testkey", 5⟩

/-- Example second user, distinct from the demo user. -/
def otherUser : User := ⟨2, "other@iberopuebla.mx", "otherkey", 0⟩

/-- Example active session on `exVehicle` in zone B, started at time 0. -/
def exSessionB : ParkingSession := ⟨1, 1, 1, 2, 0, none, none, none, "active"⟩

/-- Example finalized session, as the stop at time 181 leaves `exSession`. -/
def exSessionDone : ParkingSession :=
  ⟨1, 1, 1, 1, 0, some 181, some 4, some 6, "completed"⟩

/-- Example store whose only session is already completed. -/
def exStoreDone : Store := ⟨[demoUser], [zoneA, zoneB], [exVehicle], [exSessionDone]⟩

/-- Example store with a low-balance user and an active zone-B session. -/
def exStoreFine : Store := ⟨[poorUser], [zoneA, zoneB], [exVehicle], [exSessionB]⟩

/-- Example store with a low-balance user and an active zone-A session. -/
def exStorePoor : Store := ⟨[poorUser], [zoneA, zoneB], [exVehicle], [exSession]⟩

/-! ### List helpers -/

/-- If `find?` hits `a` and the update `f` fixes every non-matching element and
keeps `a` matching, then `find?` on the updated list hits `f a`. -/
theorem find?_map_update {α : Type} (p : α → Bool) (f : α → α) :
    ∀ (l : List α) (a : α), l.find? p = some a →
      (∀ x, p x = false → f x = x) → p (f a) = true →
      (l.map f).find? p = some (f a) := by
  intro l
  induction l with
  | nil => intro a h _ _; simp at h
  | cons x xs ih =>
    intro a h hfix hpa
    by_cases hx : p x = true
    · rw [List.find?_cons_of_pos _ hx] at h
      injection h with h
      subst h
      rw [List.map_cons, List.find?_cons_of_pos _ hpa]
    · have hx' : p x = false := by simpa using hx
      rw [List.find?_cons_of_neg _ hx] at h
      rw [List.map_cons, hfix x hx', List.find?_cons_of_neg _ hx]
      exact ih a h hfix hpa

/-- An update that never turns a non-matching element into a matching one does
not increase the number of matches. -/
theorem filter_map_length_le {α : Type} (p : α → Bool) (f : α → α)
    (h : ∀ a, p (f a) = true → p a = true) :
    ∀ l : List α, ((l.map f).filter p).length ≤ (l.filter p).length := by
  intro l
  induction l with
  | nil => simp
  | cons x xs ih =>
    rw [List.map_cons, List.filter_cons, List.filter_cons]
    by_cases hx : p (f x) = true
    · rw [if_pos hx, if_pos (h x hx)]
      simpa using ih
    · rw [if_neg hx]
      by_cases hx2 : p x = true
      · rw [if_pos hx2]
        simp only [List.length_cons]
        omega
      · rw [if_neg hx2]
        exact ih

/-- An element the update fixes stays in the mapped list. -/
theorem mem_map_of_fixed {α : Type} (f : α → α) {l : List α} {x : α}
    (hmem : x ∈ l) (hfix : f x = x) : x ∈ l.map f := by
  have := List.mem_map_of_mem f hmem
  rwa [hfix] at this

/-! ### Characterizations of the billing block -/

/-- Grace period: with `minutes ≤ 3` the billing block charges nothing,
completes, and never touches the zone. -/
theorem billing_grace {m : ℤ} (zo : Option Zone) (bal : ℚ) (h : m ≤ 3) :
    billing m zo bal = some ⟨0, 0, "completed", bal⟩ := by
  simp [billing, h]

/-- Fine branch: with `minutes > 3` and `minutes > max_minutes` the session is
fined, `cost_total = cost + 100`, and the balance is untouched — whatever the
balance is. -/
theorem billing_fined {m : ℤ} {z : Zone} (bal : ℚ) (h3 : ¬ m ≤ 3)
    (hmax : m > z.max_minutes) :
    billing m (some z) bal =
      some ⟨m * z.rate_per_min, m * z.rate_per_min + 100, "fined", bal⟩ := by
  simp [billing, h3, hmax]

/-- Pending-payment branch: within the limit but with an insufficient balance
the session is left `pending_payment` and the balance is untouched. -/
theorem billing_pending {m : ℤ} {z : Zone} {bal : ℚ} (h3 : ¬ m ≤ 3)
    (hmax : ¬ m > z.max_minutes) (hbal : bal < m * z.rate_per_min) :
    billing m (some z) bal =
      some ⟨m * z.rate_per_min, m * z.rate_per_min, "pending_payment", bal⟩ := by
  simp [billing, h3, hmax, hbal]

/-- Paid completion branch: within the limit and with a sufficient balance the
session completes and the cost is debited. -/
theorem billing_completed {m : ℤ} {z : Zone} {bal : ℚ} (h3 : ¬ m ≤ 3)
    (hmax : ¬ m > z.max_minutes) (hbal : ¬ bal < m * z.rate_per_min) :
    billing m (some z) bal =
      some ⟨m * z.rate_per_min, m * z.rate_per_min, "completed",
            bal - m * z.rate_per_min⟩ := by
  simp [billing, h3, hmax, hbal]

/-- The billing block gets stuck (the `AttributeError` on `zone.rate_per_min`)
exactly when the zone is absent and the grace period does not apply. -/
theorem billing_eq_none_inv {m : ℤ} {zo : Option Zone} {bal : ℚ}
    (h : billing m zo bal = none) : ¬ m ≤ 3 ∧ zo = none := by
  unfold billing at h
  split at h
  · simp at h
  · cases zo with
    | none => constructor <;> simp_all
    | some z =>
      exfalso
      dsimp only at h
      split at h
      · simp at h
      · split at h <;> simp at h

/-- Every status the billing block assigns is terminal. -/
theorem billing_status_terminal {m : ℤ} {zo : Option Zone} {bal : ℚ}
    {b : BillingResult} (h : billing m zo bal = some b) :
    b.final_status = "completed" ∨ b.final_status = "fined" ∨
      b.final_status = "pending_payment" := by
  unfold billing at h
  split at h
  · injection h with h; subst h; left; rfl
  · cases zo with
    | none => simp at h
    | some z =>
      dsimp only at h
      split at h
      · injection h with h; subst h; right; left; rfl
      · split at h
        · injection h with h; subst h; right; right; rfl
        · injection h with h; subst h; left; rfl

/-- The billing block never leaves a session `active`. -/
theorem billing_status_ne_active {m : ℤ} {zo : Option Zone} {bal : ℚ}
    {b : BillingResult} (h : billing m zo bal = some b) :
    b.final_status ≠ "active" := by
  rcases billing_status_terminal h with h' | h' | h' <;> rw [h'] <;> decide

/-- The billing block never drives a non-negative balance negative. -/
theorem billing_balance_nonneg {m : ℤ} {zo : Option Zone} {bal : ℚ}
    {b : BillingResult} (h : billing m zo bal = some b) (hbal : 0 ≤ bal) :
    0 ≤ b.new_balance := by
  unfold billing at h
  split at h
  · injection h with h; subst h; exact hbal
  · cases zo with
    | none => simp at h
    | some z =>
      dsimp only at h
      split at h
      · injection h with h; subst h; exact hbal
      · split at h
        · injection h with h; subst h; exact hbal
        · rename_i hlt
          injection h with h; subst h
          simpa using le_of_not_lt hlt

/-! ### Characterizations of the endpoint functions -/

/-- The Conflict branch of `create_vehicle`. -/
theorem create_vehicle_of_conflict {s : Store} {u : User} {plate : String}
    {w : Vehicle} (h : findVehicle s u.id plate = some w) :
    create_vehicle s u plate = .error .conflict := by
  unfold create_vehicle
  rw [h]

/-- The success branch of `create_vehicle`. -/
theorem create_vehicle_of_free {s : Store} {u : User} {plate : String}
    (h : findVehicle s u.id plate = none) :
    create_vehicle s u plate =
      .ok (⟨nextVehicleId s, u.id, plate⟩,
           { s with vehicles := s.vehicles ++ [⟨nextVehicleId s, u.id, plate⟩] }) := by
  unfold create_vehicle
  rw [h]

/-- Inversion for a successful `create_vehicle`. -/
theorem create_vehicle_ok_inv {s s' : Store} {u : User} {plate : String}
    {v : Vehicle} (h : create_vehicle s u plate = .ok (v, s')) :
    findVehicle s u.id plate = none ∧ v = ⟨nextVehicleId s, u.id, plate⟩ ∧
      s' = { s with vehicles := s.vehicles ++ [v] } := by
  unfold create_vehicle at h
  cases hf : findVehicle s u.id plate with
  | some w => rw [hf] at h; simp at h
  | none =>
    rw [hf] at h
    simp only [Except.ok.injEq, Prod.mk.injEq] at h
    obtain ⟨h1, h2⟩ := h
    exact ⟨rfl, h1.symm, by rw [← h2, ← h1]⟩

/-- The success branch of `start_session`. -/
theorem start_session_of_ok {s : Store} {u : User} {plate : String} {zid : Nat}
    {now : ℚ} {v : Vehicle} {z : Zone}
    (hv : findVehicle s u.id plate = some v)
    (ha : hasActive s v.id = false)
    (hz : findZone s zid = some z) :
    start_session s u plate zid now =
      .ok (sessionResponseOf (newSession s u.id v.id zid now) none,
           { s with sessions := s.sessions ++ [newSession s u.id v.id zid now] }) := by
  simp [start_session, hv, ha, hz]

/-- The Conflict branch of `start_session`. -/
theorem start_session_of_conflict {s : Store} {u : User} {plate : String}
    {zid : Nat} {now : ℚ} {v : Vehicle}
    (hv : findVehicle s u.id plate = some v)
    (ha : hasActive s v.id = true) :
    start_session s u plate zid now = .error .conflict := by
  simp [start_session, hv, ha]

/-- Inversion for a successful `start_session`. -/
theorem start_session_ok_inv {s s' : Store} {u : User} {plate : String}
    {zid : Nat} {now : ℚ} {r : SessionResponse}
    (h : start_session s u plate zid now = .ok (r, s')) :
    ∃ v z, findVehicle s u.id plate = some v ∧ hasActive s v.id = false ∧
      findZone s zid = some z ∧
      r = sessionResponseOf (newSession s u.id v.id zid now) none ∧
      s' = { s with sessions := s.sessions ++ [newSession s u.id v.id zid now] } := by
  unfold start_session at h
  cases hv : findVehicle s u.id plate with
  | none => rw [hv] at h; simp at h
  | some v =>
    rw [hv] at h
    simp only at h
    cases ha : hasActive s v.id with
    | true => rw [ha] at h; simp at h
    | false =>
      rw [ha] at h
      simp only [Bool.false_eq_true, if_false] at h
      cases hz : findZone s zid with
      | none => rw [hz] at h; simp at h
      | some z =>
        rw [hz] at h
        simp only [Except.ok.injEq, Prod.mk.injEq] at h
        obtain ⟨h1, h2⟩ := h
        exact ⟨v, z, rfl, ha, rfl, h1.symm, h2.symm⟩

/-- The NotFound branch of `stop_session`. -/
theorem stop_session_of_notFound {s : Store} {u : User} {sid : Nat} {now : ℚ}
    (h : findSession s sid = none) :
    stop_session s u sid now = .error .notFound := by
  unfold stop_session
  rw [h]

/-- The PermissionDenied branch of `stop_session`. -/
theorem stop_session_of_permissionDenied {s : Store} {u : User} {sid : Nat}
    {now : ℚ} {ps : ParkingSession} (h : findSession s sid = some ps)
    (howner : ps.user_id ≠ u.id) :
    stop_session s u sid now = .error .permissionDenied := by
  simp [stop_session, h, howner]

/-- The InvalidState branch of `stop_session`. -/
theorem stop_session_of_invalidState {s : Store} {u : User} {sid : Nat}
    {now : ℚ} {ps : ParkingSession} (h : findSession s sid = some ps)
    (howner : ps.user_id = u.id) (hstatus : ps.status ≠ "active") :
    stop_session s u sid now = .error .invalidState := by
  simp [stop_session, h, howner, hstatus]

/-- The success branch of `stop_session`, with the computed minutes and the
billing outcome supplied as hypotheses. -/
theorem stop_session_of_ok {s : Store} {u : User} {sid : Nat} {now : ℚ}
    {ps : ParkingSession} {m : ℤ} {b : BillingResult}
    (h : findSession s sid = some ps)
    (howner : ps.user_id = u.id) (hstatus : ps.status = "active")
    (hm : (⌈(now - ps.started_at) / 60⌉ : ℤ) = m)
    (hb : billing m (findZone s ps.zone_id) u.balance = some b) :
    stop_session s u sid now =
      .ok (sessionResponseOf (stoppedSession ps now m b)
            (if b.final_status == "fined" then some b.cost_total else none),
          { s with
            sessions := s.sessions.map
              (fun q => if q.id == sid then stoppedSession ps now m b else q),
            users := s.users.map
              (fun q => if q.id == u.id then { u with balance := b.new_balance } else q) }) := by
  simp only [stop_session, h, howner, hstatus, hm, hb, ne_eq, not_true_eq_false,
    if_false, ite_false]

/-- Inversion for a successful `stop_session`. -/
theorem stop_session_ok_inv {s s' : Store} {u : User} {sid : Nat} {now : ℚ}
    {r : SessionResponse} (h : stop_session s u sid now = .ok (r, s')) :
    ∃ ps b, findSession s sid = some ps ∧ ps.user_id = u.id ∧
      ps.status = "active" ∧
      billing ⌈(now - ps.started_at) / 60⌉ (findZone s ps.zone_id) u.balance = some b ∧
      r = sessionResponseOf (stoppedSession ps now ⌈(now - ps.started_at) / 60⌉ b)
            (if b.final_status == "fined" then some b.cost_total else none) ∧
      s' = { s with
             sessions := s.sessions.map
               (fun q => if q.id == sid then
                  stoppedSession ps now ⌈(now - ps.started_at) / 60⌉ b else q),
             users := s.users.map
               (fun q => if q.id == u.id then
                  { u with balance := b.new_balance } else q) } := by
  unfold stop_session at h
  cases hf : findSession s sid with
  | none => rw [hf] at h; simp at h
  | some ps =>
    rw [hf] at h
    simp only at h
    by_cases howner : ps.user_id = u.id
    · rw [if_neg (by simpa using howner)] at h
      by_cases hstatus : ps.status = "active"
      · rw [if_neg (by simpa using hstatus)] at h
        cases hb : billing ⌈(now - ps.started_at) / 60⌉ (findZone s ps.zone_id)
            u.balance with
        | none => rw [hb] at h; simp at h
        | some b =>
          rw [hb] at h
          simp only [Except.ok.injEq, Prod.mk.injEq] at h
          obtain ⟨h1, h2⟩ := h
          exact ⟨ps, b, rfl, howner, hstatus, hb, h1.symm, h2.symm⟩
      · rw [if_pos (by simpa using hstatus)] at h
        simp at h
    · rw [if_pos (by simpa using howner)] at h
      simp at h

/-- Inversion for the `internalError` outcome of `stop_session`: it requires a
missing zone on an owned active session past the grace period. -/
theorem stop_session_internalError_inv {s : Store} {u : User} {sid : Nat}
    {now : ℚ} (h : stop_session s u sid now = .error .internalError) :
    ∃ ps, findSession s sid = some ps ∧ findZone s ps.zone_id = none := by
  unfold stop_session at h
  cases hf : findSession s sid with
  | none => rw [hf] at h; simp at h
  | some ps =>
    rw [hf] at h
    simp only at h
    by_cases howner : ps.user_id = u.id
    · rw [if_neg (by simpa using howner)] at h
      by_cases hstatus : ps.status = "active"
      · rw [if_neg (by simpa using hstatus)] at h
        cases hb : billing ⌈(now - ps.started_at) / 60⌉ (findZone s ps.zone_id)
            u.balance with
        | none =>
          exact ⟨ps, rfl, (billing_eq_none_inv hb).2⟩
        | some b => rw [hb] at h; simp at h
      · rw [if_pos (by simpa using hstatus)] at h
        simp at h
    · rw [if_pos (by simpa using howner)] at h
      simp at h

/-- The InvalidArgument branch of `deposit_to_wallet`. -/
theorem deposit_of_nonpositive {s : Store} {u : User} {amount : ℚ}
    (h : amount ≤ 0) :
    deposit_to_wallet s u amount = .error .invalidArgument := by
  simp [deposit_to_wallet, h]

/-- The success branch of `deposit_to_wallet`. -/
theorem deposit_of_positive {s : Store} {u : User} {amount : ℚ}
    (h : 0 < amount) :
    deposit_to_wallet s u amount =
      .ok (u.balance + amount,
           { s with
             users := s.users.map
               (fun q => if q.id == u.id then
                  { u with balance := u.balance + amount } else q) }) := by
  simp [deposit_to_wallet, not_le.mpr h]

/-- Inversion for a successful `deposit_to_wallet`. -/
theorem deposit_ok_inv {s s' : Store} {u : User} {amount b : ℚ}
    (h : deposit_to_wallet s u amount = .ok (b, s')) :
    0 < amount ∧ b = u.balance + amount ∧
      s' = { s with
             users := s.users.map
               (fun q => if q.id == u.id then
                  { u with balance := u.balance + amount } else q) } := by
  unfold deposit_to_wallet at h
  by_cases hle : amount ≤ 0
  · rw [if_pos hle] at h; simp at h
  · rw [if_neg hle] at h
    simp only [Except.ok.injEq, Prod.mk.injEq] at h
    obtain ⟨h1, h2⟩ := h
    exact ⟨not_le.mp hle, h1.symm, h2.symm⟩

/-! ### Invariants of reachable stores -/

/-- When `start_session`'s duplicate check passes, the vehicle really has no
active session. -/
theorem countActive_eq_zero_of_not_hasActive {s : Store} {vid : Nat}
    (h : hasActive s vid = false) : countActive s vid = 0 := by
  have hnone : findActiveSession s vid = none := by
    cases hfa : findActiveSession s vid with
    | none => rfl
    | some x => rw [hasActive, hfa] at h; simp at h
  rw [countActive, List.length_eq_zero, List.filter_eq_nil_iff]
  intro a ha'
  have := List.find?_eq_none.mp hnone a ha'
  simpa using this

/-- Claim helper: in every reachable store each vehicle has at most one
active session. -/
theorem reachable_countActive_le_one {t : Store} (hs : Reachable t) :
    ∀ vid, countActive t vid ≤ 1 := by
  induction hs with
  | init => intro vid; simp [countActive, initStore]
  | @step_vehicle s s' u plate v hr hmem hop ih =>
    intro vid
    obtain ⟨-, -, hs'⟩ := create_vehicle_ok_inv hop
    subst hs'
    simpa [countActive] using ih vid
  | @step_start s s' u plate zid now r hr hmem hop ih =>
    intro vid
    obtain ⟨v, z, hv, ha, hz, -, hs'⟩ := start_session_ok_inv hop
    subst hs'
    rw [countActive]
    simp only [List.filter_append, List.length_append]
    by_cases hvid : v.id = vid
    · subst hvid
      have h0 : countActive s v.id = 0 := countActive_eq_zero_of_not_hasActive ha
      rw [countActive] at h0
      rw [h0]
      simp [newSession]
    · have hns : ((newSession s u.id v.id zid now).vehicle_id == vid &&
          (newSession s u.id v.id zid now).status == "active") = false := by
        simp [newSession, hvid]
      simp only [List.filter_cons, hns, List.filter_nil, Bool.false_eq_true,
        if_false, List.length_nil, Nat.add_zero]
      exact ih vid
  | @step_stop s s' u sid now r hr hmem hop ih =>
    intro vid
    obtain ⟨ps, b, hf, howner, hstatus, hb, -, hs'⟩ := stop_session_ok_inv hop
    subst hs'
    rw [countActive]
    refine le_trans (filter_map_length_le _ _ ?_ s.sessions) (ih vid)
    intro a hpa
    by_cases hid : (a.id == sid) = true
    · rw [if_pos hid] at hpa
      exfalso
      have hact : (stoppedSession ps now ⌈(now - ps.started_at) / 60⌉ b).status
          = "active" := beq_iff_eq.mp ((Bool.and_eq_true _ _).mp hpa).2
      exact billing_status_ne_active hb hact
    · rwa [if_neg hid] at hpa
  | @step_deposit s s' u amount b hr hmem hop ih =>
    intro vid
    obtain ⟨-, -, hs'⟩ := deposit_ok_inv hop
    subst hs'
    simpa [countActive] using ih vid

/-- Claim helper: in every reachable store all user balances are
non-negative. -/
theorem reachable_balance_nonneg {t : Store} (hs : Reachable t) :
    ∀ x ∈ t.users, 0 ≤ x.balance := by
  induction hs with
  | init =>
    intro x hx
    have hx' : x = demoUser := by simpa [initStore] using hx
    subst hx'
    norm_num [demoUser]
  | @step_vehicle s s' u plate v hr hmem hop ih =>
    obtain ⟨-, -, hs'⟩ := create_vehicle_ok_inv hop
    subst hs'
    simpa using ih
  | @step_start s s' u plate zid now r hr hmem hop ih =>
    obtain ⟨v, z, hv, ha, hz, -, hs'⟩ := start_session_ok_inv hop
    subst hs'
    simpa using ih
  | @step_stop s s' u sid now r hr hmem hop ih =>
    obtain ⟨ps, b, hf, howner, hstatus, hb, -, hs'⟩ := stop_session_ok_inv hop
    subst hs'
    intro x hx
    obtain ⟨y, hy, hxy⟩ := List.mem_map.mp hx
    by_cases hid : (y.id == u.id) = true
    · rw [if_pos hid] at hxy
      subst hxy
      exact billing_balance_nonneg hb (ih u hmem)
    · rw [if_neg hid] at hxy
      subst hxy
      exact ih y hy
  | @step_deposit s s' u amount b hr hmem hop ih =>
    obtain ⟨hpos, -, hs'⟩ := deposit_ok_inv hop
    subst hs'
    intro x hx
    obtain ⟨y, hy, hxy⟩ := List.mem_map.mp hx
    by_cases hid : (y.id == u.id) = true
    · rw [if_pos hid] at hxy
      subst hxy
      exact add_nonneg (ih u hmem) hpos.le
    · rw [if_neg hid] at hxy
      subst hxy
      exact ih y hy

/-- Claim helper: in every reachable store every session's zone exists. -/
theorem reachable_session_zone {t : Store} (hs : Reachable t) :
    ∀ q ∈ t.sessions, ∃ z ∈ t.zones, z.id = q.zone_id := by
  induction hs with
  | init => intro q hq; simp [initStore] at hq
  | @step_vehicle s s' u plate v hr hmem hop ih =>
    obtain ⟨-, -, hs'⟩ := create_vehicle_ok_inv hop
    subst hs'
    simpa using ih
  | @step_start s s' u plate zid now r hr hmem hop ih =>
    obtain ⟨v, z, hv, ha, hz, -, hs'⟩ := start_session_ok_inv hop
    subst hs'
    intro q hq
    rcases List.mem_append.mp hq with hq' | hq'
    · exact ih q hq'
    · have hq2 : q = newSession s u.id v.id zid now := List.mem_singleton.mp hq'
      subst hq2
      have hz' : s.zones.find? (fun w => w.id == zid) = some z := hz
      have hpz := List.find?_some hz'
      have hzeq : z.id = zid := by simpa using hpz
      exact ⟨z, List.mem_of_find?_eq_some hz', by simpa [newSession] using hzeq⟩
  | @step_stop s s' u sid now r hr hmem hop ih =>
    obtain ⟨ps, b, hf, howner, hstatus, hb, -, hs'⟩ := stop_session_ok_inv hop
    subst hs'
    intro q hq
    obtain ⟨y, hy, hqy⟩ := List.mem_map.mp hq
    by_cases hid : (y.id == sid) = true
    · rw [if_pos hid] at hqy
      subst hqy
      have hf' : s.sessions.find? (fun w => w.id == sid) = some ps := hf
      obtain ⟨z, hzmem, hzid⟩ := ih ps (List.mem_of_find?_eq_some hf')
      exact ⟨z, hzmem, hzid⟩
    · rw [if_neg hid] at hqy
      subst hqy
      exact ih y hy
  | @step_deposit s s' u amount b hr hmem hop ih =>
    obtain ⟨-, -, hs'⟩ := deposit_ok_inv hop
    subst hs'
    simpa using ih

/-- After a `stop_session`/`deposit_to_wallet` user-row update, the lookup by
the same key returns the updated row. -/
theorem findUser_update {s : Store} {uid : Nat} {u u' : User}
    (hf : findUser s uid = some u) (hid : u'.id = u.id) :
    (s.users.map (fun q => if q.id == uid then u' else q)).find?
      (fun q => q.id == uid) = some u' := by
  have hf' : s.users.find? (fun q => q.id == uid) = some u := hf
  have hpu := List.find?_some hf'
  have hpu' : (u.id == uid) = true := hpu
  have key := find?_map_update (fun q : User => q.id == uid)
      (fun q => if q.id == uid then u' else q) s.users u hf'
      (fun x hx => by
        have hx' : (x.id == uid) = false := hx
        show (if (x.id == uid) = true then u' else x) = x
        rw [if_neg (by simp [hx'])])
      (by
        show ((if (u.id == uid) = true then u' else u).id == uid) = true
        rw [if_pos hpu']
        simpa [hid] using hpu')
  have hfu2 : ((fun q : User => if q.id == uid then u' else q) u) = u' := by
    show (if (u.id == uid) = true then u' else u) = u'
    rw [if_pos hpu']
  rw [hfu2] at key
  exact key

/-- After a `stop_session` session-row update, the lookup by the same key
returns the updated row. -/
theorem findSession_update {s : Store} {sid : Nat} {ps ps' : ParkingSession}
    (hf : findSession s sid = some ps) (hid : ps'.id = ps.id) :
    (s.sessions.map (fun q => if q.id == sid then ps' else q)).find?
      (fun q => q.id == sid) = some ps' := by
  have hf' : s.sessions.find? (fun q => q.id == sid) = some ps := hf
  have hpu := List.find?_some hf'
  have hpu' : (ps.id == sid) = true := hpu
  have key := find?_map_update (fun q : ParkingSession => q.id == sid)
      (fun q => if q.id == sid then ps' else q) s.sessions ps hf'
      (fun x hx => by
        have hx' : (x.id == sid) = false := hx
        show (if (x.id == sid) = true then ps' else x) = x
        rw [if_neg (by simp [hx'])])
      (by
        show ((if (ps.id == sid) = true then ps' else ps).id == sid) = true
        rw [if_pos hpu']
        simpa [hid] using hpu')
  have hfs2 : ((fun q : ParkingSession => if q.id == sid then ps' else q) ps) = ps' := by
    show (if (ps.id == sid) = true then ps' else ps) = ps'
    rw [if_pos hpu']
  rw [hfs2] at key
  exact key

/-! ### The claims -/

/-- C8: `create_vehicle` fails with Conflict exactly when this user already
owns a vehicle with this exact plate string; otherwise a new vehicle owned by
the caller is persisted and returned.  The plate comparison is plain string
equality, so the same plate under a different user, or a case variant of the
plate, does not conflict. -/
theorem vehicle_plate_conflict_iff :
    (∀ (s : Store) (u : User) (plate : String),
      create_vehicle s u plate = .error .conflict ↔
        ∃ v ∈ s.vehicles, v.user_id = u.id ∧ v.plate = plate) ∧
    (∀ (s : Store) (u : User) (plate : String),
      findVehicle s u.id plate = none →
      create_vehicle s u plate =
        .ok (⟨nextVehicleId s, u.id, plate⟩,
             { s with vehicles := s.vehicles ++ [⟨nextVehicleId s, u.id, plate⟩] })) := by
  constructor
  · intro s u plate
    constructor
    · intro h
      cases hf : findVehicle s u.id plate with
      | none =>
        rw [create_vehicle_of_free hf] at h
        simp at h
      | some w =>
        have hf' : s.vehicles.find? (fun v => v.user_id == u.id && v.plate == plate)
            = some w := hf
        have hw := List.find?_some hf'
        simp only [Bool.and_eq_true, beq_iff_eq] at hw
        exact ⟨w, List.mem_of_find?_eq_some hf', hw⟩
    · rintro ⟨v, hv, h1, h2⟩
      cases hf : findVehicle s u.id plate with
      | some w => exact create_vehicle_of_conflict hf
      | none =>
        exfalso
        have hf' : s.vehicles.find? (fun w => w.user_id == u.id && w.plate == plate)
            = none := hf
        have := List.find?_eq_none.mp hf' v hv
        simp [h1, h2] at this
  · intro s u plate hf
    exact create_vehicle_of_free hf

/-- Witness for C8: the demo user re-registering `"ABC-123"` conflicts, a
different user with the same plate succeeds, and the same user with the case
variant `"abc-123"` succeeds. -/
theorem vehicle_plate_conflict_iff_witness :
    create_vehicle exStore demoUser "ABC-123" = .error .conflict ∧
    create_vehicle exStore otherUser "ABC-123" =
      .ok (⟨2, 2, "ABC-123"⟩,
           ⟨[demoUser], [zoneA, zoneB], [exVehicle, ⟨2, 2, "ABC-123"⟩], [exSession]⟩) ∧
    create_vehicle exStore demoUser "abc-123" =
      .ok (⟨2, 1, "abc-123"⟩,
           ⟨[demoUser], [zoneA, zoneB], [exVehicle, ⟨2, 1, "abc-123"⟩], [exSession]⟩) := by
  refine ⟨?_, ?_, ?_⟩
  · exact (vehicle_plate_conflict_iff.1 exStore demoUser "ABC-123").mpr
      ⟨exVehicle, by simp [exStore], rfl, rfl⟩
  · exact vehicle_plate_conflict_iff.2 exStore otherUser "ABC-123" rfl
  · exact vehicle_plate_conflict_iff.2 exStore demoUser "abc-123" rfl

/-- C9: `deposit_to_wallet` fails with InvalidArgument exactly when
`amount ≤ 0`; otherwise it adds exactly `amount` to the caller's balance,
returns the new balance, and changes nothing else in the store. -/
theorem deposit_invalid_iff_nonpositive :
    (∀ (s : Store) (u : User) (amount : ℚ),
      deposit_to_wallet s u amount = .error .invalidArgument ↔ amount ≤ 0) ∧
    (∀ (s s' : Store) (u : User) (amount b : ℚ),
      findUser s u.id = some u →
      deposit_to_wallet s u amount = .ok (b, s') →
      b = u.balance + amount ∧
      findUser s' u.id = some { u with balance := u.balance + amount } ∧
      s'.zones = s.zones ∧ s'.vehicles = s.vehicles ∧ s'.sessions = s.sessions ∧
      (∀ x ∈ s.users, x.id ≠ u.id → x ∈ s'.users)) := by
  constructor
  · intro s u amount
    constructor
    · intro h
      by_cases hle : amount ≤ 0
      · exact hle
      · rw [deposit_of_positive (not_le.mp hle)] at h
        simp at h
    · intro hle
      exact deposit_of_nonpositive hle
  · intro s s' u amount b hfu hok
    obtain ⟨hpos, hb, hs'⟩ := deposit_ok_inv hok
    subst hs'
    refine ⟨hb, findUser_update hfu rfl, rfl, rfl, rfl, ?_⟩
    intro x hx hne
    exact mem_map_of_fixed _ hx (by rw [if_neg (by simpa using hne)])

/-- Witness for C9: `deposit(-1)` fails InvalidArgument; `deposit(50)` on the
seed store leaves the user with balance `300 + 50 = 350` and the rest of the
store untouched. -/
theorem deposit_invalid_iff_nonpositive_witness :
    deposit_to_wallet initStore demoUser (-1) = .error .invalidArgument ∧
    findUser ⟨[⟨1, "demo@iberopuebla.mx", "testkey", demoUser.balance + 50⟩],
        [zoneA, zoneB], [], []⟩ 1 =
      some ⟨1, "demo@iberopuebla.mx", "testkey", demoUser.balance + 50⟩ ∧
    demoUser.balance + 50 = 350 := by
  have hok : deposit_to_wallet initStore demoUser 50 =
      .ok (demoUser.balance + 50,
           { initStore with
             users := initStore.users.map
               (fun q => if q.id == demoUser.id then
                  { demoUser with balance := demoUser.balance + 50 } else q) }) :=
    deposit_of_positive (by norm_num)
  have h := deposit_invalid_iff_nonpositive.2 initStore _ demoUser 50
      (demoUser.balance + 50) rfl hok
  exact ⟨(deposit_invalid_iff_nonpositive.1 initStore demoUser (-1)).mpr (by norm_num),
    h.2.1, by norm_num [demoUser]⟩

/-- C10: in every reachable store every session's zone exists, and
`stop_session` never hits the unguarded `zone.rate_per_min` dereference on a
missing zone — the `AttributeError` outcome is unreachable. -/
theorem stop_zone_dereference_safe :
    (∀ s : Store, Reachable s → ∀ q ∈ s.sessions, ∃ z ∈ s.zones, z.id = q.zone_id) ∧
    (∀ s : Store, Reachable s → ∀ (u : User) (sid : Nat) (now : ℚ),
      stop_session s u sid now ≠ .error .internalError) := by
  constructor
  · intro s hs
    exact reachable_session_zone hs
  · intro s hs u sid now h
    obtain ⟨ps, hf, hz⟩ := stop_session_internalError_inv h
    have hf' : s.sessions.find? (fun q => q.id == sid) = some ps := hf
    obtain ⟨z, hzmem, hzid⟩ :=
      reachable_session_zone hs ps (List.mem_of_find?_eq_some hf')
    have hz' : s.zones.find? (fun w => w.id == ps.zone_id) = none := hz
    have hnone := List.find?_eq_none.mp hz' z hzmem
    simp [hzid] at hnone

/-- Witness for C10 at the seed store. -/
theorem stop_zone_dereference_safe_witness :
    stop_session initStore demoUser 1 0 ≠ .error .internalError :=
  stop_zone_dereference_safe.2 initStore Reachable.init demoUser 1 0

/-- C1: in every reachable store each vehicle has at most one session with
status `"active"`; `start_session` fails with Conflict (HTTP 409) whenever an
active session already exists for the resolved vehicle, and otherwise creates
the new session with status `"active"`, so every operation preserves the
invariant. -/
theorem single_active_session_per_vehicle :
    (∀ s : Store, Reachable s → ∀ vid, countActive s vid ≤ 1) ∧
    statusCode ApiError.conflict = 409 ∧
    (∀ (s : Store) (u : User) (plate : String) (zid : Nat) (now : ℚ)
        (v : Vehicle), findVehicle s u.id plate = some v →
      hasActive s v.id = true →
      start_session s u plate zid now = .error .conflict) ∧
    (∀ (s : Store) (u : User) (plate : String) (zid : Nat) (now : ℚ)
        (v : Vehicle) (z : Zone), findVehicle s u.id plate = some v →
      hasActive s v.id = false → findZone s zid = some z →
      start_session s u plate zid now =
        .ok (sessionResponseOf (newSession s u.id v.id zid now) none,
             { s with sessions := s.sessions ++ [newSession s u.id v.id zid now] }) ∧
      (newSession s u.id v.id zid now).status = "active") := by
  refine ⟨?_, rfl, ?_, ?_⟩
  · intro s hs vid
    exact reachable_countActive_le_one hs vid
  · intro s u plate zid now v hv ha
    exact start_session_of_conflict hv ha
  · intro s u plate zid now v z hv ha hz
    exact ⟨start_session_of_ok hv ha hz, rfl⟩

/-- Witness for C1: the invariant at the seed store, a Conflict on a second
start for `exVehicle`, and a successful start producing `exStore` itself. -/
theorem single_active_session_per_vehicle_witness :
    countActive initStore 1 ≤ 1 ∧
    start_session exStore demoUser "ABC-123" 2 300 = .error .conflict ∧
    start_session ⟨[demoUser], [zoneA, zoneB], [exVehicle], []⟩ demoUser
        "ABC-123" 1 0 = .ok (sessionResponseOf exSession none, exStore) := by
  refine ⟨single_active_session_per_vehicle.1 initStore Reachable.init 1,
    single_active_session_per_vehicle.2.2.1 exStore demoUser "ABC-123" 2 300
      exVehicle rfl rfl, ?_⟩
  exact (single_active_session_per_vehicle.2.2.2
    ⟨[demoUser], [zoneA, zoneB], [exVehicle], []⟩ demoUser "ABC-123" 1 0
    exVehicle zoneA rfl rfl rfl).1

/-- C6: the billing block debits the balance only when it completes the
session (and then by exactly the stored cost, which for a charged session is
`minutes * rate_per_min` and never exceeds the prior balance); `fined` and
`pending_payment` leave the balance unchanged.  Consequently every user
balance in every reachable store is non-negative. -/
theorem balance_debited_only_on_completed :
    (∀ (m : ℤ) (zo : Option Zone) (bal : ℚ) (b : BillingResult),
      billing m zo bal = some b →
      (b.final_status ≠ "completed" → b.new_balance = bal) ∧
      (b.final_status = "completed" → b.new_balance = bal - b.cost ∧
        (b.cost ≠ 0 → b.cost ≤ bal)) ∧
      (¬ m ≤ 3 → ∃ z, zo = some z ∧ b.cost = m * z.rate_per_min)) ∧
    (∀ s : Store, Reachable s → ∀ x ∈ s.users, 0 ≤ x.balance) := by
  constructor
  · intro m zo bal b h
    unfold billing at h
    split at h
    · rename_i hm3
      injection h with h
      subst h
      exact ⟨fun _ => rfl,
        fun _ => ⟨by simp, fun hc => absurd rfl hc⟩,
        fun hc => absurd hm3 hc⟩
    · cases zo with
      | none => simp at h
      | some z =>
        dsimp only at h
        split at h
        · injection h with h
          subst h
          exact ⟨fun _ => rfl,
            fun hc => by simp at hc,
            fun _ => ⟨z, rfl, rfl⟩⟩
        · split at h
          · injection h with h
            subst h
            exact ⟨fun _ => rfl,
              fun hc => by simp at hc,
              fun _ => ⟨z, rfl, rfl⟩⟩
          · rename_i hlt
            injection h with h
            subst h
            exact ⟨fun hc => absurd rfl hc,
              fun _ => ⟨rfl, fun _ => le_of_not_lt hlt⟩,
              fun _ => ⟨z, rfl, rfl⟩⟩
  · intro s hs
    exact reachable_balance_nonneg hs

/-- Witness for C6: a paid completion debits exactly the cost (which the
balance covers), and the seed store's balances are non-negative. -/
theorem balance_debited_only_on_completed_witness :
    ((6 : ℚ) ≠ 0 → (6 : ℚ) ≤ 300) ∧ 0 ≤ demoUser.balance := by
  have hb : billing 4 (some zoneA) 300 =
      some ⟨(4 : ℤ) * zoneA.rate_per_min, (4 : ℤ) * zoneA.rate_per_min,
            "completed", 300 - (4 : ℤ) * zoneA.rate_per_min⟩ :=
    billing_completed (by decide) (by decide) (by norm_num [zoneA])
  have hb6 : billing 4 (some zoneA) 300 = some ⟨6, 6, "completed", 294⟩ := by
    rw [hb]
    norm_num [zoneA]
  constructor
  · have h := (balance_debited_only_on_completed.1 4 (some zoneA) 300
      ⟨6, 6, "completed", 294⟩ hb6).2.1 rfl
    exact h.2
  · exact balance_debited_only_on_completed.2 initStore Reachable.init demoUser
      (by simp [initStore])

/-- C7: `stop_session` checks NotFound, then PermissionDenied, then
InvalidState, in that order; a failing call returns the store unchanged (by
construction of the embedding errors carry no store update), so a second stop
on a session the first stop finalized fails InvalidState. -/
theorem stop_error_order :
    (∀ (s : Store) (u : User) (sid : Nat) (now : ℚ),
      findSession s sid = none → stop_session s u sid now = .error .notFound) ∧
    (∀ (s : Store) (u : User) (sid : Nat) (now : ℚ) (ps : ParkingSession),
      findSession s sid = some ps → ps.user_id ≠ u.id →
      stop_session s u sid now = .error .permissionDenied) ∧
    (∀ (s : Store) (u : User) (sid : Nat) (now : ℚ) (ps : ParkingSession),
      findSession s sid = some ps → ps.user_id = u.id → ps.status ≠ "active" →
      stop_session s u sid now = .error .invalidState) ∧
    (∀ (s s' : Store) (u : User) (sid : Nat) (t t' : ℚ) (r : SessionResponse),
      stop_session s u sid t = .ok (r, s') →
      stop_session s' u sid t' = .error .invalidState) := by
  refine ⟨?_, ?_, ?_, ?_⟩
  · intro s u sid now h
    exact stop_session_of_notFound h
  · intro s u sid now ps h howner
    exact stop_session_of_permissionDenied h howner
  · intro s u sid now ps h howner hstatus
    exact stop_session_of_invalidState h howner hstatus
  · intro s s' u sid t t' r hok
    obtain ⟨ps, b, hf, howner, hstatus, hb, -, hs'⟩ := stop_session_ok_inv hok
    subst hs'
    exact stop_session_of_invalidState (findSession_update hf rfl) howner
      (billing_status_ne_active hb)

/-- Witness for C7: a missing session, a foreign session, an already-completed
session, and a freshly stopped session each fail as specified. -/
theorem stop_error_order_witness :
    stop_session exStore demoUser 2 0 = .error .notFound ∧
    stop_session exStore otherUser 1 0 = .error .permissionDenied ∧
    stop_session exStoreDone demoUser 1 0 = .error .invalidState ∧
    stop_session ⟨[⟨1, "demo@iberopuebla.mx", "testkey", 294⟩], [zoneA, zoneB],
        [exVehicle], [exSessionDone]⟩ demoUser 1 300 = .error .invalidState := by
  have hm : (⌈((181 : ℚ) - exSession.started_at) / 60⌉ : ℤ) = 4 := by
    rw [Int.ceil_eq_iff]
    constructor <;> norm_num [exSession]
  have hz : findZone exStore exSession.zone_id = some zoneA := rfl
  have hbA : billing 4 (some zoneA) demoUser.balance =
      some ⟨(4 : ℤ) * zoneA.rate_per_min, (4 : ℤ) * zoneA.rate_per_min,
            "completed", demoUser.balance - (4 : ℤ) * zoneA.rate_per_min⟩ :=
    billing_completed (by decide) (by decide) (by norm_num [zoneA, demoUser])
  have hb : billing 4 (findZone exStore exSession.zone_id) demoUser.balance =
      some ⟨6, 6, "completed", 294⟩ := by
    rw [hz, hbA]
    norm_num [zoneA, demoUser]
  have hok := @stop_session_of_ok exStore demoUser 1 181 exSession 4
      ⟨6, 6, "completed", 294⟩ rfl rfl rfl hm hb
  exact ⟨stop_error_order.1 exStore demoUser 2 0 rfl,
    stop_error_order.2.1 exStore otherUser 1 0 exSession rfl (by decide),
    stop_error_order.2.2.1 exStoreDone demoUser 1 0 exSessionDone rfl rfl
      (by decide),
    stop_error_order.2.2.2 exStore _ demoUser 1 181 300 _ hok⟩

/-- C2: on every successful stop the billed minutes equal
`⌈duration_seconds / 60⌉` where `duration_seconds = now - started_at`; any
partial minute rounds up (a duration in `(60k, 60(k+1)]` bills `k + 1`
minutes), and any positive duration bills at least one minute. -/
theorem stop_minutes_ceiling {s s' : Store} {u : User} {sid : Nat} {now : ℚ}
    {r : SessionResponse} {ps : ParkingSession}
    (hf : findSession s sid = some ps)
    (hok : stop_session s u sid now = .ok (r, s')) :
    r.minutes = some ⌈(now - ps.started_at) / 60⌉ ∧
    (0 < now - ps.started_at → ∀ m, r.minutes = some m → 1 ≤ m) ∧
    (∀ k : ℤ, 60 * k < now - ps.started_at → now - ps.started_at ≤ 60 * (k + 1) →
      r.minutes = some (k + 1)) := by
  obtain ⟨q, b, hf₀, howner, hstatus, hb, hr, -⟩ := stop_session_ok_inv hok
  rw [hf₀] at hf
  injection hf with hf
  subst hf
  subst hr
  have hmin : (sessionResponseOf
      (stoppedSession q now ⌈(now - q.started_at) / 60⌉ b)
      (if b.final_status == "fined" then some b.cost_total else none)).minutes
      = some ⌈(now - q.started_at) / 60⌉ := rfl
  refine ⟨hmin, ?_, ?_⟩
  · intro hpos m hm
    rw [hmin] at hm
    injection hm with hm
    subst hm
    have hq : (0 : ℚ) < (now - q.started_at) / 60 :=
      div_pos hpos (by norm_num)
    have := Int.ceil_pos.mpr hq
    omega
  · intro k h1 h2
    rw [hmin]
    congr 1
    rw [Int.ceil_eq_iff]
    constructor
    · push_cast
      rw [lt_div_iff₀ (by norm_num : (0 : ℚ) < 60)]
      linarith
    · rw [div_le_iff₀ (by norm_num : (0 : ℚ) < 60)]
      push_cast
      linarith

/-- Witness for C2: stopping `exSession` after 181 seconds bills
`⌈181 / 60⌉ = 3 + 1 = 4` minutes. -/
theorem stop_minutes_ceiling_witness :
    (sessionResponseOf ⟨1, 1, 1, 1, 0, some 181, some 4, some 6, "completed"⟩
      none).minutes = some 4 := by
  have hm : (⌈((181 : ℚ) - exSession.started_at) / 60⌉ : ℤ) = 4 := by
    rw [Int.ceil_eq_iff]
    constructor <;> norm_num [exSession]
  have hz : findZone exStore exSession.zone_id = some zoneA := rfl
  have hbA : billing 4 (some zoneA) demoUser.balance =
      some ⟨(4 : ℤ) * zoneA.rate_per_min, (4 : ℤ) * zoneA.rate_per_min,
            "completed", demoUser.balance - (4 : ℤ) * zoneA.rate_per_min⟩ :=
    billing_completed (by decide) (by decide) (by norm_num [zoneA, demoUser])
  have hb : billing 4 (findZone exStore exSession.zone_id) demoUser.balance =
      some ⟨6, 6, "completed", 294⟩ := by
    rw [hz, hbA]
    norm_num [zoneA, demoUser]
  have hok := @stop_session_of_ok exStore demoUser 1 181 exSession 4
      ⟨6, 6, "completed", 294⟩ rfl rfl rfl hm hb
  exact (@stop_minutes_ceiling exStore _ demoUser 1 181 _ exSession rfl hok).2.2
    3 (by norm_num [exSession]) (by norm_num [exSession])

/-- C3: with computed minutes at most 3 the billing block charges nothing —
`cost = 0`, `cost_total = 0`, status `"completed"` — whatever the zone (and
hence whatever its rate), and a successful stop in that regime stores cost 0,
reports no fine surcharge, and leaves the caller's balance unchanged. -/
theorem grace_period_no_charge :
    (∀ (m : ℤ) (zo : Option Zone) (bal : ℚ), m ≤ 3 →
      billing m zo bal = some ⟨0, 0, "completed", bal⟩) ∧
    (∀ (s s' : Store) (u : User) (sid : Nat) (now : ℚ) (r : SessionResponse)
        (ps : ParkingSession), findSession s sid = some ps →
      findUser s u.id = some u →
      stop_session s u sid now = .ok (r, s') →
      ⌈(now - ps.started_at) / 60⌉ ≤ 3 →
      r.cost = some 0 ∧ r.status = "completed" ∧ r.cost_total = none ∧
      findUser s' u.id = some u) := by
  constructor
  · intro m zo bal hm
    exact billing_grace zo bal hm
  · intro s s' u sid now r ps hf hfu hok hm
    obtain ⟨q, b, hf₀, howner, hstatus, hb, hr, hs'⟩ := stop_session_ok_inv hok
    rw [hf₀] at hf
    injection hf with hf
    subst hf
    rw [billing_grace (findZone s q.zone_id) u.balance hm] at hb
    injection hb with hb
    subst hb
    subst hr hs'
    exact ⟨rfl, rfl, rfl, findUser_update hfu rfl⟩

/-- Witness for C3: a 100-second session bills 2 minutes and completes free of
charge even at a positive rate, with the balance untouched. -/
theorem grace_period_no_charge_witness :
    billing 3 (some zoneA) 5 = some ⟨0, 0, "completed", 5⟩ ∧
    (sessionResponseOf ⟨1, 1, 1, 1, 0, some 100, some 2, some 0, "completed"⟩
      none).cost = some 0 ∧
    findUser ⟨[demoUser], [zoneA, zoneB], [exVehicle],
      [⟨1, 1, 1, 1, 0, some 100, some 2, some 0, "completed"⟩]⟩ 1 =
      some demoUser := by
  have hm : (⌈((100 : ℚ) - exSession.started_at) / 60⌉ : ℤ) = 2 := by
    rw [Int.ceil_eq_iff]
    constructor <;> norm_num [exSession]
  have hb : billing 2 (findZone exStore exSession.zone_id) demoUser.balance =
      some ⟨0, 0, "completed", demoUser.balance⟩ :=
    billing_grace _ _ (by decide)
  have hok := @stop_session_of_ok exStore demoUser 1 100 exSession 2
      ⟨0, 0, "completed", demoUser.balance⟩ rfl rfl rfl hm hb
  have h := grace_period_no_charge.2 exStore _ demoUser 1 100 _ exSession rfl
      rfl hok (by rw [hm]; norm_num)
  exact ⟨grace_period_no_charge.1 3 (some zoneA) 5 (by decide), h.1, h.2.2.2⟩

/-- C4: past the grace period and past the zone's `max_minutes` the session is
fined — stored cost `minutes * rate_per_min`, reported
`cost_total = cost + 100` — and the balance is not debited; the fine branch is
checked before the balance, so it applies even when the balance cannot cover
the cost. -/
theorem overstay_fined :
    (∀ (m : ℤ) (z : Zone) (bal : ℚ), ¬ m ≤ 3 → m > z.max_minutes →
      billing m (some z) bal =
        some ⟨m * z.rate_per_min, m * z.rate_per_min + 100, "fined", bal⟩) ∧
    (∀ (s s' : Store) (u : User) (sid : Nat) (now : ℚ) (r : SessionResponse)
        (ps : ParkingSession) (z : Zone), findSession s sid = some ps →
      findZone s ps.zone_id = some z → findUser s u.id = some u →
      stop_session s u sid now = .ok (r, s') →
      ¬ ⌈(now - ps.started_at) / 60⌉ ≤ 3 →
      ⌈(now - ps.started_at) / 60⌉ > z.max_minutes →
      r.status = "fined" ∧
      r.cost = some (⌈(now - ps.started_at) / 60⌉ * z.rate_per_min) ∧
      r.cost_total = some (⌈(now - ps.started_at) / 60⌉ * z.rate_per_min + 100) ∧
      findUser s' u.id = some u) := by
  constructor
  · intro m z bal h3 hmax
    exact billing_fined bal h3 hmax
  · intro s s' u sid now r ps z hf hz hfu hok h3 hmax
    obtain ⟨q, b, hf₀, howner, hstatus, hb, hr, hs'⟩ := stop_session_ok_inv hok
    rw [hf₀] at hf
    injection hf with hf
    subst hf
    rw [hz, billing_fined u.balance h3 hmax] at hb
    injection hb with hb
    subst hb
    subst hr hs'
    exact ⟨rfl, rfl, rfl, findUser_update hfu rfl⟩

/-- Witness for C4: a 201-minute session in zone B (max 180) is fined with
`cost_total = cost + 100` even though the balance 5 is below the cost 201, and
the balance is untouched. -/
theorem overstay_fined_witness :
    poorUser.balance < (201 : ℤ) * zoneB.rate_per_min ∧
    (sessionResponseOf ⟨1, 1, 1, 2, 0, some 12060, some 201,
        some ((201 : ℤ) * zoneB.rate_per_min), "fined"⟩
        (some ((201 : ℤ) * zoneB.rate_per_min + 100))).cost_total =
      some ((201 : ℤ) * zoneB.rate_per_min + 100) ∧
    findUser ⟨[poorUser], [zoneA, zoneB], [exVehicle],
        [⟨1, 1, 1, 2, 0, some 12060, some 201,
          some ((201 : ℤ) * zoneB.rate_per_min), "fined"⟩]⟩ 1 =
      some poorUser := by
  have hm : (⌈((12060 : ℚ) - exSessionB.started_at) / 60⌉ : ℤ) = 201 := by
    rw [Int.ceil_eq_iff]
    constructor <;> norm_num [exSessionB]
  have hz : findZone exStoreFine exSessionB.zone_id = some zoneB := rfl
  have hb : billing 201 (findZone exStoreFine exSessionB.zone_id)
      poorUser.balance =
      some ⟨(201 : ℤ) * zoneB.rate_per_min,
            (201 : ℤ) * zoneB.rate_per_min + 100, "fined", poorUser.balance⟩ := by
    rw [hz]
    exact billing_fined poorUser.balance (by decide) (by decide)
  have hok := @stop_session_of_ok exStoreFine poorUser 1 12060 exSessionB 201
      ⟨(201 : ℤ) * zoneB.rate_per_min, (201 : ℤ) * zoneB.rate_per_min + 100,
       "fined", poorUser.balance⟩ rfl rfl rfl hm hb
  have h := overstay_fined.2 exStoreFine _ poorUser 1 12060 _ exSessionB zoneB
      rfl rfl rfl hok (by rw [hm]; norm_num) (by rw [hm]; decide)
  have h4 := h.2.2.1
  rw [hm] at h4
  exact ⟨by norm_num [poorUser, zoneB], h4, h.2.2.2⟩

/-- C5: past the grace period, within the zone limit, and with a balance below
the cost, the session is left `pending_payment` and the balance is unchanged
(balance 5 against cost 6 stays 5). -/
theorem insufficient_balance_pending :
    (∀ (m : ℤ) (z : Zone) (bal : ℚ), ¬ m ≤ 3 → ¬ m > z.max_minutes →
      bal < m * z.rate_per_min →
      billing m (some z) bal =
        some ⟨m * z.rate_per_min, m * z.rate_per_min, "pending_payment", bal⟩) ∧
    (∀ (s s' : Store) (u : User) (sid : Nat) (now : ℚ) (r : SessionResponse)
        (ps : ParkingSession) (z : Zone), findSession s sid = some ps →
      findZone s ps.zone_id = some z → findUser s u.id = some u →
      stop_session s u sid now = .ok (r, s') →
      ¬ ⌈(now - ps.started_at) / 60⌉ ≤ 3 →
      ¬ ⌈(now - ps.started_at) / 60⌉ > z.max_minutes →
      u.balance < ⌈(now - ps.started_at) / 60⌉ * z.rate_per_min →
      r.status = "pending_payment" ∧
      r.cost = some (⌈(now - ps.started_at) / 60⌉ * z.rate_per_min) ∧
      r.cost_total = none ∧
      findUser s' u.id = some u) := by
  constructor
  · intro m z bal h3 hmax hbal
    exact billing_pending h3 hmax hbal
  · intro s s' u sid now r ps z hf hz hfu hok h3 hmax hbal
    obtain ⟨q, b, hf₀, howner, hstatus, hb, hr, hs'⟩ := stop_session_ok_inv hok
    rw [hf₀] at hf
    injection hf with hf
    subst hf
    rw [hz, billing_pending h3 hmax hbal] at hb
    injection hb with hb
    subst hb
    subst hr hs'
    exact ⟨rfl, rfl, rfl, findUser_update hfu rfl⟩

/-- Witness for C5: the spec's example — balance 5, 4 minutes in zone A at
rate 1.5, so cost 6 — ends `pending_payment` with the balance still 5. -/
theorem insufficient_balance_pending_witness :
    poorUser.balance < (4 : ℤ) * zoneA.rate_per_min ∧
    (4 : ℤ) * zoneA.rate_per_min = (6 : ℚ) ∧
    (sessionResponseOf ⟨1, 1, 1, 1, 0, some 181, some 4,
        some ((4 : ℤ) * zoneA.rate_per_min), "pending_payment"⟩
        none).status = "pending_payment" ∧
    findUser ⟨[poorUser], [zoneA, zoneB], [exVehicle],
        [⟨1, 1, 1, 1, 0, some 181, some 4,
          some ((4 : ℤ) * zoneA.rate_per_min), "pending_payment"⟩]⟩ 1 =
      some poorUser := by
  have hm : (⌈((181 : ℚ) - exSession.started_at) / 60⌉ : ℤ) = 4 := by
    rw [Int.ceil_eq_iff]
    constructor <;> norm_num [exSession]
  have hz : findZone exStorePoor exSession.zone_id = some zoneA := rfl
  have hbal : poorUser.balance < (4 : ℤ) * zoneA.rate_per_min := by
    norm_num [poorUser, zoneA]
  have hb : billing 4 (findZone exStorePoor exSession.zone_id)
      poorUser.balance =
      some ⟨(4 : ℤ) * zoneA.rate_per_min, (4 : ℤ) * zoneA.rate_per_min,
            "pending_payment", poorUser.balance⟩ := by
    rw [hz]
    exact billing_pending (by decide) (by decide) hbal
  have hok := @stop_session_of_ok exStorePoor poorUser 1 181 exSession 4
      ⟨(4 : ℤ) * zoneA.rate_per_min, (4 : ℤ) * zoneA.rate_per_min,
       "pending_payment", poorUser.balance⟩ rfl rfl rfl hm hb
  have h := insufficient_balance_pending.2 exStorePoor _ poorUser 1 181 _
      exSession zoneA rfl rfl rfl hok (by rw [hm]; norm_num)
      (by rw [hm]; decide) (by rw [hm]; exact hbal)
  exact ⟨hbal, by norm_num [zoneA], h.1, h.2.2.2⟩
